import Mathlib

/-!
Shallow embedding of the peer-state synchronization core of
`multiplayer-three-socket` (`src/client/client.ts`, class `SocketHandler`).

Modelling choices:
* JS numbers are modelled as rationals (`ℚ`); timestamps as integers (`ℤ`).
* The JS objects `clientCubes`, `positions`, `quaternions` (plain objects used
  as string-keyed maps, with insertion-order key enumeration) are modelled as
  association lists `List (String × _)`; `setKey` overwrites an existing key in
  place and appends a missing one, matching JS property assignment, and
  `getKey` is property lookup (`none` = `undefined`).
* The scene graph is modelled by the list of names of peer cubes currently
  added to the scene (`sceneNames`); `scene.remove(scene.getObjectByName(id))`
  removes the first object with that name, and `remove(undefined)` is a
  no-op, which is exactly `List.erase`.
* `THREE.Vector3.lerp(v, alpha)` is `this.x += (v.x - this.x) * alpha`
  componentwise, embedded exactly in `lerpVec`.  `THREE.Quaternion.slerp` is an
  external library routine built from transcendental functions; the advance
  operation is therefore parameterised by a slerp function `slerpFn`, and the
  theorems about it hold for an arbitrary such function.
* `Date.now()` is passed in as an explicit `now : ℤ` argument.
-/

namespace MultiplayerClient

/-- Position component of a pose (three scalars). -/
structure Vec3 where
  x : ℚ
  y : ℚ
  z : ℚ
deriving DecidableEq, Repr

/-- Orientation component of a pose (quaternion, four scalars). -/
structure Quat where
  x : ℚ
  y : ℚ
  z : ℚ
  w : ℚ
deriving DecidableEq, Repr

/-- A peer cube, the visual proxy: `new THREE.Mesh(geometry, material)` with
its `name` set to the peer id.  A fresh mesh starts at position `(0,0,0)` and
identity quaternion `(0,0,0,1)` (THREE defaults). -/
structure Mesh where
  name : String
  position : Vec3
  quaternion : Quat
deriving DecidableEq, Repr

/-- Constructing `new THREE.Mesh(...)` followed by `mesh.name = c`. -/
def newMesh (c : String) : Mesh :=
  ⟨c, ⟨0, 0, 0⟩, ⟨0, 0, 0, 1⟩⟩

/-- One inbound per-peer snapshot entry, a timestamp `t` with optional pose
fields: `p` arrives as an `x`/`y`/`z` object, `q` as a four-element array
(spread into `new THREE.Quaternion(...)`).  Absent fields are `none`. -/
structure SnapshotMessage where
  t : ℤ
  p : Option Vec3
  q : Option (ℚ × ℚ × ℚ × ℚ)
deriving DecidableEq, Repr

/-- Constructing `new THREE.Quaternion(...)` from the received four-element
array. -/
def quatOfArray : ℚ × ℚ × ℚ × ℚ → Quat
  | (a, b, c, d) => ⟨a, b, c, d⟩

/-- Association-list lookup, i.e. the JS property read `obj[k]`. -/
def getKey {α : Type} : List (String × α) → String → Option α
  | [], _ => none
  | (k', v) :: rest, k => if k' = k then some v else getKey rest k

/-- Association-list write, i.e. the JS property assignment `obj[k] = v`:
overwrite in place if the key exists, else append; key enumeration order is
preserved. -/
def setKey {α : Type} : List (String × α) → String → α → List (String × α)
  | [], k, v => [(k, v)]
  | (k', v') :: rest, k, v =>
      if k' = k then (k, v) :: rest else (k', v') :: setKey rest k v

/-- Key list of an association list, i.e. `Object.keys` in enumeration
order. -/
def keys {α : Type} (l : List (String × α)) : List String :=
  l.map Prod.fst

/-- Mutable state of `SocketHandler`, together with the scene membership of
the peer cubes (which the handler manipulates through `this.scene`). -/
structure HState where
  clientCubes : List (String × Mesh)
  positions : List (String × Vec3)
  quaternions : List (String × Quat)
  sceneNames : List String
  myId : String
  timestamp : ℤ
  pingStatsHtml : String
deriving DecidableEq, Repr

/-- Field initialisers of `SocketHandler`: empty maps, empty `myId`,
`timestamp = 0`, no peer cube on screen yet. -/
def initialState : HState :=
  ⟨[], [], [], [], "", 0, ""⟩

/-- Body of the `Object.keys(clients).forEach` loop in `handleClients`,
without the ping-stats string accumulation (handled by the caller):
`this.timestamp = Date.now()`; then either create the cube and add it to the
scene (id without a cube) or overwrite the target fields that are present in
the message (id with a cube). -/
def processClientEntry (now : ℤ) (s : HState) (c : String)
    (m : SnapshotMessage) : HState :=
  let s1 := { s with timestamp := now }
  match getKey s1.clientCubes c with
  | none =>
      { s1 with
        clientCubes := s1.clientCubes ++ [(c, newMesh c)]
        sceneNames := s1.sceneNames ++ [c] }
  | some _ =>
      let s2 :=
        match m.p with
        | some pv => { s1 with positions := setKey s1.positions c pv }
        | none => s1
      match m.q with
      | some qv => { s2 with quaternions := setKey s2.quaternions c (quatOfArray qv) }
      | none => s2

/-- Ping-stats line appended for one entry, the string
`c + ' ' + (timestamp - clients[c].t) + 'ms<br/>'`. -/
def pingLine (now : ℤ) (c : String) (m : SnapshotMessage) : String :=
  c ++ " " ++ toString (now - m.t) ++ "ms<br/>"

/-- The `handleClients` handler: fold the loop body over the batch entries in
key-enumeration order, accumulating the ping-stats string, then assign the
string to the overlay. -/
def handleClients (now : ℤ) (s : HState)
    (batch : List (String × SnapshotMessage)) : HState :=
  let r := batch.foldl
    (fun (acc : HState × String) e =>
      (processClientEntry now acc.1 e.1 e.2, acc.2 ++ pingLine now e.1 e.2))
    (s, "Socket Ping Stats<br/><br/>")
  { r.1 with pingStatsHtml := r.2 }

/-- State component of the `handleClients` fold, without the ping-stats
accumulator. -/
def clientsFold (now : ℤ) (s : HState)
    (batch : List (String × SnapshotMessage)) : HState :=
  batch.foldl (fun st e => processClientEntry now st e.1 e.2) s

/-- The `handleRemoveClient` handler:
`this.scene.remove(this.scene.instance.getObjectByName(id))` — detach the
scene object named `id` if there is one (`remove(undefined)` is a no-op).
Nothing else is touched. -/
def handleRemoveClient (s : HState) (i : String) : HState :=
  { s with sceneNames := s.sceneNames.erase i }

/-- Exact embedding of `THREE.Vector3.lerp(v, alpha)`:
`this.x += (v.x - this.x) * alpha` componentwise. -/
def lerpVec (a b : Vec3) (t : ℚ) : Vec3 :=
  ⟨a.x + (b.x - a.x) * t, a.y + (b.y - a.y) * t, a.z + (b.z - a.z) * t⟩

/-- Body of the `updateClientCubes` loop for one cube `m` keyed by `c`:
lerp the position 0.1 toward `positions[c]` when that is set, then slerp the
quaternion 0.1 toward `quaternions[c]` when that is set. -/
def advanceMesh (slerpFn : Quat → Quat → ℚ → Quat)
    (positions : List (String × Vec3)) (quaternions : List (String × Quat))
    (c : String) (m : Mesh) : Mesh :=
  let m1 :=
    match getKey positions c with
    | some tp => { m with position := lerpVec m.position tp (1/10) }
    | none => m
  match getKey quaternions c with
  | some tq => { m1 with quaternion := slerpFn m1.quaternion tq (1/10) }
  | none => m1

/-- The `updateClientCubes` per-frame operation: for every key of
`clientCubes`, advance that cube toward its stored targets.  `slerpFn` stands
for the external `THREE.Quaternion.slerp`. -/
def updateClientCubes (slerpFn : Quat → Quat → ℚ → Quat) (s : HState) : HState :=
  { s with
    clientCubes := s.clientCubes.map (fun e =>
      (e.1, advanceMesh slerpFn s.positions s.quaternions e.1 e.2)) }

/-- Concrete stand-in quaternion interpolator, used only to instantiate the
`slerpFn` parameter on concrete inputs (componentwise linear
interpolation). -/
def lerpQuat (a b : Quat) (t : ℚ) : Quat :=
  ⟨a.x + (b.x - a.x) * t, a.y + (b.y - a.y) * t,
   a.z + (b.z - a.z) * t, a.w + (b.w - a.w) * t⟩

/-- Squared Euclidean distance between two positions. -/
def distSq (a b : Vec3) : ℚ :=
  (a.x - b.x) ^ 2 + (a.y - b.y) ^ 2 + (a.z - b.z) ^ 2

/-- States reachable from the handler's initial state by socket events
(`clients` batches, `removeClient`, the id assignment writing `myId`) and
render-loop `updateClientCubes` calls. -/
inductive Reachable : HState → Prop
  | init : Reachable initialState
  | clients {s} (now : ℤ) (batch : List (String × SnapshotMessage)) :
      Reachable s → Reachable (handleClients now s batch)
  | removeClient {s} (i : String) :
      Reachable s → Reachable (handleRemoveClient s i)
  | advanceFrame {s} (slerpFn : Quat → Quat → ℚ → Quat) :
      Reachable s → Reachable (updateClientCubes slerpFn s)
  | assignId {s} (x : String) :
      Reachable s → Reachable { s with myId := x }

/-! ### The local pose publisher as an event-trace model

The `id` socket handler stores the assigned id and installs a
`setInterval(..., 50)` timer that emits one `update` message per tick, reading
the live local object.  We model the inbound event stream (id assignment,
timer ticks carrying the live pose at that instant, connect/disconnect) and
the outbound messages each event produces.  `intervalCount` counts the
installed intervals (0 until the id-assignment event fires). -/

/-- Outbound `update` payload: `t: Date.now()`, `p: this.object.position`,
`q: this.object.quaternion`. -/
structure UpdateMsg where
  t : ℤ
  p : Vec3
  q : Quat
deriving DecidableEq, Repr

/-- Period, in milliseconds, passed to `setInterval` in the id handler. -/
def updateIntervalMs : ℕ := 50

/-- Publisher-side state: the stored id and the number of installed publish
intervals. -/
structure PubState where
  myId : String
  intervalCount : ℕ
deriving DecidableEq, Repr

/-- Publisher-side state before any socket event: empty id, no interval. -/
def initialPubState : PubState :=
  ⟨"", 0⟩

/-- One inbound occurrence on the publisher side: the socket events handled in
`setupSocketEvents` that concern publishing, plus a timer tick carrying the
time and the live local pose at that instant. -/
inductive SocketEvent
  | evConnect
  | evDisconnect
  | evId (i : String)
  | evTick (now : ℤ) (objPos : Vec3) (objQuat : Quat)
deriving DecidableEq, Repr

/-- Processing one event: connect/disconnect only log; the id event stores the
id and installs one publish interval; a timer tick emits one `update` message
per installed interval, reading the live pose. -/
def pubStep (s : PubState) : SocketEvent → PubState × List UpdateMsg
  | .evConnect => (s, [])
  | .evDisconnect => (s, [])
  | .evId i => (⟨i, s.intervalCount + 1⟩, [])
  | .evTick now p q => (s, List.replicate s.intervalCount ⟨now, p, q⟩)

/-- Processing a whole event trace, concatenating the emitted messages. -/
def pubRun (s : PubState) : List SocketEvent → PubState × List UpdateMsg
  | [] => (s, [])
  | e :: rest =>
      let r := pubStep s e
      let r' := pubRun r.1 rest
      (r'.1, r.2 ++ r'.2)

/-- Predicate singling out the id-assignment event. -/
def isIdEvent : SocketEvent → Bool
  | .evId _ => true
  | _ => false

/-- Message a lone timer tick would publish (non-tick events publish
nothing). -/
def tickMsgOf : SocketEvent → Option UpdateMsg
  | .evTick now p q => some ⟨now, p, q⟩
  | _ => none

/-! ### Concrete scenario from spec §8 -/

/-- First snapshot for peer `p1`: `t = 100`, pose at the origin. -/
def sampleMsg1 : SnapshotMessage := ⟨100, some ⟨0, 0, 0⟩, some (0, 0, 0, 1)⟩

/-- Second snapshot for peer `p1`: `t = 150`, position `(2,0,0)`. -/
def sampleMsg2 : SnapshotMessage := ⟨150, some ⟨2, 0, 0⟩, some (0, 0, 0, 1)⟩

/-- State after the first `clients` batch sighting of `p1`. -/
def sampleS1 : HState := handleClients 100 initialState [("p1", sampleMsg1)]

/-- State after the second `clients` batch for `p1`. -/
def sampleS2 : HState := handleClients 150 sampleS1 [("p1", sampleMsg2)]

/-- State after `removeClient` for `p1`. -/
def sampleS3 : HState := handleRemoveClient sampleS2 "p1"

/-- State after `p1` reappears in a `clients` batch following its removal. -/
def sampleS4 : HState :=
  handleClients 200 sampleS3 [("p1", ⟨200, some ⟨3, 0, 0⟩, none⟩)]

end MultiplayerClient
namespace MultiplayerClient

/-! ### Association-list lemmas -/

theorem getKey_append_ne {α : Type} (l : List (String × α)) (d c : String)
    (v : α) (h : d ≠ c) : getKey (l ++ [(d, v)]) c = getKey l c := by
  induction l with
  | nil => simp [getKey, h]
  | cons e rest ih => cases e with | mk k' v' => simp [getKey, ih]

theorem getKey_append_self {α : Type} (l : List (String × α)) (c : String)
    (v : α) (h : getKey l c = none) : getKey (l ++ [(c, v)]) c = some v := by
  induction l with
  | nil => simp [getKey]
  | cons e rest ih =>
      cases e with | mk k' v' =>
        by_cases hk : k' = c
        · simp [getKey, hk] at h
        · simp [getKey, hk] at h ⊢
          exact ih h

theorem getKey_setKey_self {α : Type} (l : List (String × α)) (c : String)
    (v : α) : getKey (setKey l c v) c = some v := by
  induction l with
  | nil => simp [getKey, setKey]
  | cons e rest ih =>
      cases e with | mk k' v' =>
        by_cases hk : k' = c
        · simp [getKey, setKey, hk]
        · simp [getKey, setKey, hk, ih]

theorem getKey_setKey_ne {α : Type} (l : List (String × α)) (d c : String)
    (v : α) (h : d ≠ c) : getKey (setKey l d v) c = getKey l c := by
  induction l with
  | nil => simp [getKey, setKey, h]
  | cons e rest ih =>
      cases e with | mk k' v' =>
        by_cases hk : k' = d
        · subst hk; simp [getKey, setKey, h]
        · simp [getKey, setKey, hk, ih]

theorem getKey_eq_none_iff {α : Type} (l : List (String × α)) (c : String) :
    getKey l c = none ↔ c ∉ keys l := by
  induction l with
  | nil => simp [getKey, keys]
  | cons e rest ih =>
      cases e with | mk k' v' =>
        by_cases hk : k' = c
        · subst hk; simp [getKey, keys]
        · simp [getKey, keys, hk, ih, Ne.symm hk]

theorem keys_append_single {α : Type} (l : List (String × α)) (c : String)
    (v : α) : keys (l ++ [(c, v)]) = keys l ++ [c] := by
  simp [keys]

/-! ### Characterisation of the `handleClients` loop body -/

theorem processClientEntry_fresh {now : ℤ} {s : HState} {c : String}
    {m : SnapshotMessage} (h : getKey s.clientCubes c = none) :
    processClientEntry now s c m =
      { s with timestamp := now
               clientCubes := s.clientCubes ++ [(c, newMesh c)]
               sceneNames := s.sceneNames ++ [c] } := by
  simp [processClientEntry, h]

theorem processClientEntry_existing {now : ℤ} {s : HState} {c : String}
    {m : SnapshotMessage} (mh : Mesh) (h : getKey s.clientCubes c = some mh) :
    processClientEntry now s c m =
      { s with timestamp := now
               positions :=
                 match m.p with
                 | some pv => setKey s.positions c pv
                 | none => s.positions
               quaternions :=
                 match m.q with
                 | some qv => setKey s.quaternions c (quatOfArray qv)
                 | none => s.quaternions } := by
  cases hp : m.p <;> cases hq : m.q <;> simp [processClientEntry, h, hp, hq]

end MultiplayerClient
namespace MultiplayerClient

/-! ### Preservation at other keys -/

theorem processClientEntry_myId (now : ℤ) (s : HState) (d : String)
    (m : SnapshotMessage) : (processClientEntry now s d m).myId = s.myId := by
  cases hd : getKey s.clientCubes d with
  | none => rw [processClientEntry_fresh hd]
  | some mh => rw [processClientEntry_existing mh hd]

theorem processClientEntry_cubes_other {now : ℤ} {s : HState} {d c : String}
    {m : SnapshotMessage} (h : d ≠ c) :
    getKey (processClientEntry now s d m).clientCubes c = getKey s.clientCubes c := by
  cases hd : getKey s.clientCubes d with
  | none => rw [processClientEntry_fresh hd]; exact getKey_append_ne _ _ _ _ h
  | some mh => rw [processClientEntry_existing mh hd]

theorem processClientEntry_cubes_count_other {now : ℤ} {s : HState} {d c : String}
    {m : SnapshotMessage} (h : d ≠ c) :
    (keys (processClientEntry now s d m).clientCubes).count c
      = (keys s.clientCubes).count c := by
  cases hd : getKey s.clientCubes d with
  | none =>
      rw [processClientEntry_fresh hd]
      show (keys (s.clientCubes ++ [(d, newMesh d)])).count c = _
      rw [keys_append_single]
      simp [List.count_append, List.count_singleton, Ne.symm h]
  | some mh => rw [processClientEntry_existing mh hd]

theorem processClientEntry_positions_other {now : ℤ} {s : HState} {d c : String}
    {m : SnapshotMessage} (h : d ≠ c) :
    getKey (processClientEntry now s d m).positions c = getKey s.positions c := by
  cases hd : getKey s.clientCubes d with
  | none => rw [processClientEntry_fresh hd]
  | some mh =>
      rw [processClientEntry_existing mh hd]
      cases hp : m.p with
      | none => simp
      | some pv => simp [getKey_setKey_ne _ _ _ _ h]

theorem processClientEntry_quaternions_other {now : ℤ} {s : HState} {d c : String}
    {m : SnapshotMessage} (h : d ≠ c) :
    getKey (processClientEntry now s d m).quaternions c = getKey s.quaternions c := by
  cases hd : getKey s.clientCubes d with
  | none => rw [processClientEntry_fresh hd]
  | some mh =>
      rw [processClientEntry_existing mh hd]
      cases hq : m.q with
      | none => simp
      | some qv => simp [getKey_setKey_ne _ _ _ _ h]

theorem processClientEntry_scene_count_other {now : ℤ} {s : HState} {d c : String}
    {m : SnapshotMessage} (h : d ≠ c) :
    (processClientEntry now s d m).sceneNames.count c = s.sceneNames.count c := by
  cases hd : getKey s.clientCubes d with
  | none =>
      rw [processClientEntry_fresh hd]
      show (s.sceneNames ++ [d]).count c = _
      simp [List.count_append, List.count_singleton, Ne.symm h]
  | some mh => rw [processClientEntry_existing mh hd]

end MultiplayerClient
namespace MultiplayerClient

/-! ### Fold-level lemmas for `handleClients` -/

theorem clientsFold_nil (now : ℤ) (s : HState) : clientsFold now s [] = s := rfl

theorem clientsFold_cons (now : ℤ) (s : HState) (e : String × SnapshotMessage)
    (b : List (String × SnapshotMessage)) :
    clientsFold now s (e :: b) = clientsFold now (processClientEntry now s e.1 e.2) b := rfl

theorem clientsFold_append (now : ℤ) (s : HState)
    (b1 b2 : List (String × SnapshotMessage)) :
    clientsFold now s (b1 ++ b2) = clientsFold now (clientsFold now s b1) b2 := by
  simp [clientsFold, List.foldl_append]

theorem clientsFold_cubes_other {now : ℤ} {c : String}
    {b : List (String × SnapshotMessage)} (hb : c ∉ keys b) :
    ∀ s : HState, getKey (clientsFold now s b).clientCubes c = getKey s.clientCubes c := by
  induction b with
  | nil => intro s; rfl
  | cons e rest ih =>
      intro s
      simp [keys] at hb
      rw [clientsFold_cons]
      rw [ih (by simp [keys]; exact fun a hmem => hb.2 a hmem)]
      exact processClientEntry_cubes_other (fun hdc => hb.1 hdc.symm)

theorem clientsFold_cubes_count_other {now : ℤ} {c : String}
    {b : List (String × SnapshotMessage)} (hb : c ∉ keys b) :
    ∀ s : HState,
      (keys (clientsFold now s b).clientCubes).count c = (keys s.clientCubes).count c := by
  induction b with
  | nil => intro s; rfl
  | cons e rest ih =>
      intro s
      simp [keys] at hb
      rw [clientsFold_cons]
      rw [ih (by simp [keys]; exact fun a hmem => hb.2 a hmem)]
      exact processClientEntry_cubes_count_other (fun hdc => hb.1 hdc.symm)

theorem clientsFold_positions_other {now : ℤ} {c : String}
    {b : List (String × SnapshotMessage)} (hb : c ∉ keys b) :
    ∀ s : HState, getKey (clientsFold now s b).positions c = getKey s.positions c := by
  induction b with
  | nil => intro s; rfl
  | cons e rest ih =>
      intro s
      simp [keys] at hb
      rw [clientsFold_cons]
      rw [ih (by simp [keys]; exact fun a hmem => hb.2 a hmem)]
      exact processClientEntry_positions_other (fun hdc => hb.1 hdc.symm)

theorem clientsFold_quaternions_other {now : ℤ} {c : String}
    {b : List (String × SnapshotMessage)} (hb : c ∉ keys b) :
    ∀ s : HState, getKey (clientsFold now s b).quaternions c = getKey s.quaternions c := by
  induction b with
  | nil => intro s; rfl
  | cons e rest ih =>
      intro s
      simp [keys] at hb
      rw [clientsFold_cons]
      rw [ih (by simp [keys]; exact fun a hmem => hb.2 a hmem)]
      exact processClientEntry_quaternions_other (fun hdc => hb.1 hdc.symm)

theorem clientsFold_scene_count_other {now : ℤ} {c : String}
    {b : List (String × SnapshotMessage)} (hb : c ∉ keys b) :
    ∀ s : HState, (clientsFold now s b).sceneNames.count c = s.sceneNames.count c := by
  induction b with
  | nil => intro s; rfl
  | cons e rest ih =>
      intro s
      simp [keys] at hb
      rw [clientsFold_cons]
      rw [ih (by simp [keys]; exact fun a hmem => hb.2 a hmem)]
      exact processClientEntry_scene_count_other (fun hdc => hb.1 hdc.symm)

theorem clientsFold_myId (now : ℤ) (b : List (String × SnapshotMessage)) :
    ∀ s : HState, (clientsFold now s b).myId = s.myId := by
  induction b with
  | nil => intro s; rfl
  | cons e rest ih =>
      intro s
      rw [clientsFold_cons, ih, processClientEntry_myId]

theorem handleClients_toFold (now : ℤ) (b : List (String × SnapshotMessage)) :
    ∀ (s : HState) (str : String),
      (b.foldl (fun (acc : HState × String) e =>
        (processClientEntry now acc.1 e.1 e.2, acc.2 ++ pingLine now e.1 e.2))
        (s, str)).1 = clientsFold now s b := by
  induction b with
  | nil => intro s str; rfl
  | cons e rest ih =>
      intro s str
      rw [clientsFold_cons]
      exact ih (processClientEntry now s e.1 e.2) (str ++ pingLine now e.1 e.2)

theorem handleClients_clientCubes (now : ℤ) (s : HState)
    (b : List (String × SnapshotMessage)) :
    (handleClients now s b).clientCubes = (clientsFold now s b).clientCubes := by
  show ((b.foldl _ (s, _)).1).clientCubes = _
  rw [handleClients_toFold]

theorem handleClients_positions (now : ℤ) (s : HState)
    (b : List (String × SnapshotMessage)) :
    (handleClients now s b).positions = (clientsFold now s b).positions := by
  show ((b.foldl _ (s, _)).1).positions = _
  rw [handleClients_toFold]

theorem handleClients_quaternions (now : ℤ) (s : HState)
    (b : List (String × SnapshotMessage)) :
    (handleClients now s b).quaternions = (clientsFold now s b).quaternions := by
  show ((b.foldl _ (s, _)).1).quaternions = _
  rw [handleClients_toFold]

theorem handleClients_sceneNames (now : ℤ) (s : HState)
    (b : List (String × SnapshotMessage)) :
    (handleClients now s b).sceneNames = (clientsFold now s b).sceneNames := by
  show ((b.foldl _ (s, _)).1).sceneNames = _
  rw [handleClients_toFold]

theorem handleClients_myId (now : ℤ) (s : HState)
    (b : List (String × SnapshotMessage)) :
    (handleClients now s b).myId = s.myId := by
  show ((b.foldl _ (s, _)).1).myId = _
  rw [handleClients_toFold, clientsFold_myId]

end MultiplayerClient
namespace MultiplayerClient

/-! ### Effect of a batch at one of its own keys -/

theorem batch_fresh_effect (now : ℤ) (s : HState)
    (b1 b2 : List (String × SnapshotMessage)) (c : String) (msg : SnapshotMessage)
    (h1 : c ∉ keys b1) (h2 : c ∉ keys b2)
    (hc : getKey s.clientCubes c = none) :
    getKey (clientsFold now s (b1 ++ (c, msg) :: b2)).clientCubes c = some (newMesh c) ∧
    (keys (clientsFold now s (b1 ++ (c, msg) :: b2)).clientCubes).count c
      = (keys s.clientCubes).count c + 1 ∧
    (clientsFold now s (b1 ++ (c, msg) :: b2)).sceneNames.count c
      = s.sceneNames.count c + 1 ∧
    getKey (clientsFold now s (b1 ++ (c, msg) :: b2)).positions c = getKey s.positions c ∧
    getKey (clientsFold now s (b1 ++ (c, msg) :: b2)).quaternions c = getKey s.quaternions c := by
  rw [clientsFold_append, clientsFold_cons]
  have hpreC : getKey (clientsFold now s b1).clientCubes c = none := by
    rw [clientsFold_cubes_other h1]; exact hc
  rw [processClientEntry_fresh hpreC]
  refine ⟨?_, ?_, ?_, ?_, ?_⟩
  · rw [clientsFold_cubes_other h2]
    exact getKey_append_self _ _ _ hpreC
  · rw [clientsFold_cubes_count_other h2]
    show (keys ((clientsFold now s b1).clientCubes ++ [(c, newMesh c)])).count c = _
    rw [keys_append_single, List.count_append, clientsFold_cubes_count_other h1]
    simp
  · rw [clientsFold_scene_count_other h2]
    show ((clientsFold now s b1).sceneNames ++ [c]).count c = _
    rw [List.count_append, clientsFold_scene_count_other h1]
    simp
  · rw [clientsFold_positions_other h2]
    show getKey (clientsFold now s b1).positions c = _
    rw [clientsFold_positions_other h1]
  · rw [clientsFold_quaternions_other h2]
    show getKey (clientsFold now s b1).quaternions c = _
    rw [clientsFold_quaternions_other h1]

theorem batch_existing_effect (now : ℤ) (s : HState)
    (b1 b2 : List (String × SnapshotMessage)) (c : String) (msg : SnapshotMessage)
    (mh : Mesh) (h1 : c ∉ keys b1) (h2 : c ∉ keys b2)
    (hc : getKey s.clientCubes c = some mh) :
    getKey (clientsFold now s (b1 ++ (c, msg) :: b2)).positions c
      = (match msg.p with
         | some v => some v
         | none => getKey s.positions c) ∧
    getKey (clientsFold now s (b1 ++ (c, msg) :: b2)).quaternions c
      = (match msg.q with
         | some a => some (quatOfArray a)
         | none => getKey s.quaternions c) ∧
    getKey (clientsFold now s (b1 ++ (c, msg) :: b2)).clientCubes c = some mh ∧
    (keys (clientsFold now s (b1 ++ (c, msg) :: b2)).clientCubes).count c
      = (keys s.clientCubes).count c ∧
    (clientsFold now s (b1 ++ (c, msg) :: b2)).sceneNames.count c
      = s.sceneNames.count c := by
  rw [clientsFold_append, clientsFold_cons]
  have hpreC : getKey (clientsFold now s b1).clientCubes c = some mh := by
    rw [clientsFold_cubes_other h1]; exact hc
  rw [processClientEntry_existing mh hpreC]
  refine ⟨?_, ?_, ?_, ?_, ?_⟩
  · rw [clientsFold_positions_other h2]
    cases hp : msg.p with
    | none =>
        show getKey (clientsFold now s b1).positions c = _
        rw [clientsFold_positions_other h1]
    | some v =>
        show getKey (setKey (clientsFold now s b1).positions c v) c = _
        rw [getKey_setKey_self]
  · rw [clientsFold_quaternions_other h2]
    cases hq : msg.q with
    | none =>
        show getKey (clientsFold now s b1).quaternions c = _
        rw [clientsFold_quaternions_other h1]
    | some a =>
        show getKey (setKey (clientsFold now s b1).quaternions c (quatOfArray a)) c = _
        rw [getKey_setKey_self]
  · rw [clientsFold_cubes_other h2]
    exact hpreC
  · rw [clientsFold_cubes_count_other h2]
    show (keys (clientsFold now s b1).clientCubes).count c = _
    rw [clientsFold_cubes_count_other h1]
  · rw [clientsFold_scene_count_other h2]
    show (clientsFold now s b1).sceneNames.count c = _
    rw [clientsFold_scene_count_other h1]

end MultiplayerClient
namespace MultiplayerClient

/-! ### Lemmas about `updateClientCubes` -/

theorem getKey_map_entries {α β : Type} (g : String → α → β)
    (l : List (String × α)) (c : String) :
    getKey (l.map (fun e => (e.1, g e.1 e.2))) c = (getKey l c).map (g c) := by
  induction l with
  | nil => rfl
  | cons e rest ih =>
      cases e with | mk k' v =>
        by_cases hk : k' = c
        · subst hk; simp [getKey]
        · simp [getKey, hk, ih]

theorem keys_map_entries {α β : Type} (g : String → α → β)
    (l : List (String × α)) :
    keys (l.map (fun e => (e.1, g e.1 e.2))) = keys l := by
  simp [keys, List.map_map]

theorem updateClientCubes_getKey (f : Quat → Quat → ℚ → Quat) (s : HState)
    (c : String) :
    getKey (updateClientCubes f s).clientCubes c
      = (getKey s.clientCubes c).map (advanceMesh f s.positions s.quaternions c) := by
  show getKey (s.clientCubes.map _) c = _
  exact getKey_map_entries _ _ _

theorem advanceMesh_position_of_target {f : Quat → Quat → ℚ → Quat}
    {ps : List (String × Vec3)} {qs : List (String × Quat)} {c : String}
    {m : Mesh} {tp : Vec3} (hp : getKey ps c = some tp) :
    (advanceMesh f ps qs c m).position = lerpVec m.position tp (1/10) := by
  unfold advanceMesh
  rw [hp]
  cases hq : getKey qs c <;> simp

theorem advanceMesh_position_of_no_target {f : Quat → Quat → ℚ → Quat}
    {ps : List (String × Vec3)} {qs : List (String × Quat)} {c : String}
    {m : Mesh} (hp : getKey ps c = none) :
    (advanceMesh f ps qs c m).position = m.position := by
  unfold advanceMesh
  rw [hp]
  cases hq : getKey qs c <;> simp

theorem advanceMesh_quaternion_of_target {f : Quat → Quat → ℚ → Quat}
    {ps : List (String × Vec3)} {qs : List (String × Quat)} {c : String}
    {m : Mesh} {tq : Quat} (hq : getKey qs c = some tq) :
    (advanceMesh f ps qs c m).quaternion = f m.quaternion tq (1/10) := by
  unfold advanceMesh
  rw [hq]
  cases hp : getKey ps c <;> simp

theorem advanceMesh_quaternion_of_no_target {f : Quat → Quat → ℚ → Quat}
    {ps : List (String × Vec3)} {qs : List (String × Quat)} {c : String}
    {m : Mesh} (hq : getKey qs c = none) :
    (advanceMesh f ps qs c m).quaternion = m.quaternion := by
  unfold advanceMesh
  rw [hq]
  cases hp : getKey ps c <;> simp

theorem advanceMesh_name (f : Quat → Quat → ℚ → Quat)
    (ps : List (String × Vec3)) (qs : List (String × Quat)) (c : String)
    (m : Mesh) : (advanceMesh f ps qs c m).name = m.name := by
  unfold advanceMesh
  cases hp : getKey ps c <;> cases hq : getKey qs c <;> simp

/-! ### Arithmetic of the 0.1 interpolation step -/

theorem vec3_ext (a b : Vec3) (hx : a.x = b.x) (hy : a.y = b.y)
    (hz : a.z = b.z) : a = b := by
  cases a
  cases b
  simp_all

theorem lerp_residual_x (a b : Vec3) :
    (lerpVec a b (1/10)).x - b.x = (9/10) * (a.x - b.x) := by
  simp [lerpVec]
  ring

theorem lerp_residual_y (a b : Vec3) :
    (lerpVec a b (1/10)).y - b.y = (9/10) * (a.y - b.y) := by
  simp [lerpVec]
  ring

theorem lerp_residual_z (a b : Vec3) :
    (lerpVec a b (1/10)).z - b.z = (9/10) * (a.z - b.z) := by
  simp [lerpVec]
  ring

theorem distSq_lerp (a b : Vec3) :
    distSq (lerpVec a b (1/10)) b = (81/100) * distSq a b := by
  simp [distSq, lerpVec]
  ring

theorem distSq_pos_of_ne {a b : Vec3} (h : a ≠ b) : 0 < distSq a b := by
  rcases lt_or_eq_of_le (show (0:ℚ) ≤ distSq a b by unfold distSq; positivity) with hlt | heq
  · exact hlt
  · exfalso
    apply h
    have heq' : (a.x - b.x) ^ 2 + (a.y - b.y) ^ 2 + (a.z - b.z) ^ 2 = 0 := by
      have h0 : distSq a b = 0 := heq.symm
      simpa [distSq] using h0
    have hx : (a.x - b.x) ^ 2 = 0 := by
      nlinarith [sq_nonneg (a.x - b.x), sq_nonneg (a.y - b.y), sq_nonneg (a.z - b.z)]
    have hy : (a.y - b.y) ^ 2 = 0 := by
      nlinarith [sq_nonneg (a.x - b.x), sq_nonneg (a.y - b.y), sq_nonneg (a.z - b.z)]
    have hz : (a.z - b.z) ^ 2 = 0 := by
      nlinarith [sq_nonneg (a.x - b.x), sq_nonneg (a.y - b.y), sq_nonneg (a.z - b.z)]
    refine vec3_ext a b ?_ ?_ ?_
    · have := sq_eq_zero_iff.mp hx; linarith
    · have := sq_eq_zero_iff.mp hy; linarith
    · have := sq_eq_zero_iff.mp hz; linarith

end MultiplayerClient
namespace MultiplayerClient

/-! ### Registry invariant on reachable states -/

/-- Every peer cube currently in the scene has a registry entry, and scene
names are pairwise distinct. -/
def registryInv (s : HState) : Prop :=
  s.sceneNames ⊆ keys s.clientCubes ∧ s.sceneNames.Nodup

theorem processClientEntry_inv {now : ℤ} {s : HState} {c : String}
    {m : SnapshotMessage} (h : registryInv s) :
    registryInv (processClientEntry now s c m) := by
  obtain ⟨hsub, hnd⟩ := h
  cases hc : getKey s.clientCubes c with
  | none =>
      rw [processClientEntry_fresh hc]
      constructor
      · show s.sceneNames ++ [c] ⊆ keys (s.clientCubes ++ [(c, newMesh c)])
        rw [keys_append_single]
        exact List.append_subset.mpr
          ⟨hsub.trans (List.subset_append_left _ _), List.subset_append_right _ _⟩
      · show (s.sceneNames ++ [c]).Nodup
        have hcnot : c ∉ s.sceneNames := by
          intro hmem
          exact ((getKey_eq_none_iff _ _).mp hc) (hsub hmem)
        simp [List.nodup_append, hnd, hcnot]
  | some mh =>
      rw [processClientEntry_existing mh hc]
      exact ⟨hsub, hnd⟩

theorem clientsFold_inv {now : ℤ} {b : List (String × SnapshotMessage)} :
    ∀ s : HState, registryInv s → registryInv (clientsFold now s b) := by
  induction b with
  | nil => intro s h; exact h
  | cons e rest ih =>
      intro s h
      rw [clientsFold_cons]
      exact ih _ (processClientEntry_inv h)

theorem reachable_registryInv {s : HState} (h : Reachable s) : registryInv s := by
  induction h with
  | init => exact ⟨by simp [initialState, keys], by simp [initialState]⟩
  | clients now batch _ ih =>
      obtain ⟨hsub, hnd⟩ := clientsFold_inv _ ih
      constructor
      · rw [handleClients_sceneNames]
        show _ ⊆ keys (handleClients _ _ _).clientCubes
        rw [handleClients_clientCubes]
        exact hsub
      · rw [handleClients_sceneNames]
        exact hnd
  | removeClient i _ ih =>
      obtain ⟨hsub, hnd⟩ := ih
      exact ⟨(List.erase_subset _ _).trans hsub, hnd.erase i⟩
  | advanceFrame f _ ih =>
      obtain ⟨hsub, hnd⟩ := ih
      constructor
      · simpa [updateClientCubes, keys_map_entries] using hsub
      · exact hnd
  | assignId x _ ih => exact ih

end MultiplayerClient
namespace MultiplayerClient

/-! ### Claim theorems -/

/-- C2 (code-bug evidence): after the §8 scenario and `removeClient("p1")`,
the cube is detached from the scene, but the `clientCubes` record and the
stored target survive, and the next `updateClientCubes` call still iterates
and interpolates `p1` — its cube moves from `(0,0,0)` to `(1/5,0,0)` —
contradicting the claim that after a removal every subsequent advance no
longer references the identifier. -/
theorem removeClient_leaves_record_and_advance_still_references_it :
    sampleS3.sceneNames = [] ∧
    getKey sampleS3.clientCubes "p1" = some (newMesh "p1") ∧
    getKey sampleS3.positions "p1" = some ⟨2, 0, 0⟩ ∧
    keys (updateClientCubes lerpQuat sampleS3).clientCubes = ["p1"] ∧
    (getKey (updateClientCubes lerpQuat sampleS3).clientCubes "p1").map Mesh.position
      = some ⟨1/5, 0, 0⟩ := by
  refine ⟨by decide, by decide, by decide, by decide, ?_⟩
  simp [sampleS3, sampleS2, sampleS1, sampleMsg1, sampleMsg2, handleClients,
    handleRemoveClient, processClientEntry, updateClientCubes, advanceMesh,
    getKey, setKey, keys, initialState, newMesh, lerpVec, lerpQuat, quatOfArray]
  norm_num

/-- C3 (code-bug evidence): when `p1` reappears in a `clients` batch after its
removal, the registry does not treat it as unknown: the surviving record makes
the handler take the update branch, so the received position `(3,0,0)` is
stored as a target on the very first reappearance sighting, no fresh record is
created, and no proxy is (re-)added to the scene — contradicting the claim
that `Removed` is terminal and a reappearing identifier gets a fresh record
and proxy with no target. -/
theorem removed_id_reappearance_not_treated_as_unknown :
    getKey sampleS4.positions "p1" = some ⟨3, 0, 0⟩ ∧
    keys sampleS4.clientCubes = ["p1"] ∧
    sampleS4.sceneNames = [] ∧
    getKey sampleS4.clientCubes "p1" = some (newMesh "p1") := by
  refine ⟨by decide, by decide, by decide, by decide⟩

/-- C10: one `updateClientCubes` call changes only the cubes' current pose:
the set (and order) of registered identifiers, the stored target positions and
orientations, the scene membership, the local identifier, and the diagnostics
state (`timestamp`, ping-stats overlay) are all identical before and after. -/
theorem updateClientCubes_touches_only_current_pose :
    ∀ (f : Quat → Quat → ℚ → Quat) (s : HState),
      keys (updateClientCubes f s).clientCubes = keys s.clientCubes ∧
      (updateClientCubes f s).positions = s.positions ∧
      (updateClientCubes f s).quaternions = s.quaternions ∧
      (updateClientCubes f s).sceneNames = s.sceneNames ∧
      (updateClientCubes f s).myId = s.myId ∧
      (updateClientCubes f s).timestamp = s.timestamp ∧
      (updateClientCubes f s).pingStatsHtml = s.pingStatsHtml := by
  intro f s
  exact ⟨keys_map_entries _ _, rfl, rfl, rfl, rfl, rfl, rfl⟩

end MultiplayerClient
namespace MultiplayerClient

/-- C1: in any `clients` batch, an identifier with no existing record gets
exactly one new record and one proxy added to the scene, and no target is set
for it (even when the message carries pose fields); an identifier with an
existing record gets exactly the present fields of its message written as
targets.  Consequently (third conjunct, §8 scenario) the first target is set
by the second sighting. -/
theorem first_sighting_creates_proxy_without_target :
    (∀ (now : ℤ) (s : HState) (b1 b2 : List (String × SnapshotMessage))
       (c : String) (msg : SnapshotMessage),
       c ∉ keys b1 → c ∉ keys b2 → getKey s.clientCubes c = none →
       getKey (handleClients now s (b1 ++ (c, msg) :: b2)).clientCubes c
         = some (newMesh c) ∧
       (keys (handleClients now s (b1 ++ (c, msg) :: b2)).clientCubes).count c
         = (keys s.clientCubes).count c + 1 ∧
       (handleClients now s (b1 ++ (c, msg) :: b2)).sceneNames.count c
         = s.sceneNames.count c + 1 ∧
       getKey (handleClients now s (b1 ++ (c, msg) :: b2)).positions c
         = getKey s.positions c ∧
       getKey (handleClients now s (b1 ++ (c, msg) :: b2)).quaternions c
         = getKey s.quaternions c) ∧
    (∀ (now : ℤ) (s : HState) (b1 b2 : List (String × SnapshotMessage))
       (c : String) (msg : SnapshotMessage) (mh : Mesh),
       c ∉ keys b1 → c ∉ keys b2 → getKey s.clientCubes c = some mh →
       getKey (handleClients now s (b1 ++ (c, msg) :: b2)).positions c
         = (match msg.p with
            | some v => some v
            | none => getKey s.positions c) ∧
       getKey (handleClients now s (b1 ++ (c, msg) :: b2)).quaternions c
         = (match msg.q with
            | some a => some (quatOfArray a)
            | none => getKey s.quaternions c)) ∧
    (getKey sampleS1.clientCubes "p1" = some (newMesh "p1") ∧
     getKey sampleS1.positions "p1" = none ∧
     getKey sampleS1.quaternions "p1" = none ∧
     getKey sampleS2.positions "p1" = some ⟨2, 0, 0⟩) := by
  refine ⟨?_, ?_, by decide, by decide, by decide, by decide⟩
  · intro now s b1 b2 c msg h1 h2 hc
    obtain ⟨e1, e2, e3, e4, e5⟩ := batch_fresh_effect now s b1 b2 c msg h1 h2 hc
    rw [handleClients_clientCubes, handleClients_positions,
      handleClients_quaternions, handleClients_sceneNames]
    exact ⟨e1, e2, e3, e4, e5⟩
  · intro now s b1 b2 c msg mh h1 h2 hc
    obtain ⟨e1, e2, _, _, _⟩ := batch_existing_effect now s b1 b2 c msg mh h1 h2 hc
    rw [handleClients_positions, handleClients_quaternions]
    exact ⟨e1, e2⟩

/-- C1 witness: instantiating the fresh-identifier part on the concrete §8
first batch. -/
theorem first_sighting_creates_proxy_without_target_witness :
    (("p1" ∉ keys ([] : List (String × SnapshotMessage))) ∧
     getKey initialState.clientCubes "p1" = none) ∧
    (getKey (handleClients 100 initialState
        ([] ++ ("p1", sampleMsg1) :: [])).clientCubes "p1" = some (newMesh "p1") ∧
     (keys (handleClients 100 initialState
        ([] ++ ("p1", sampleMsg1) :: [])).clientCubes).count "p1"
       = (keys initialState.clientCubes).count "p1" + 1 ∧
     (handleClients 100 initialState
        ([] ++ ("p1", sampleMsg1) :: [])).sceneNames.count "p1"
       = initialState.sceneNames.count "p1" + 1 ∧
     getKey (handleClients 100 initialState
        ([] ++ ("p1", sampleMsg1) :: [])).positions "p1"
       = getKey initialState.positions "p1" ∧
     getKey (handleClients 100 initialState
        ([] ++ ("p1", sampleMsg1) :: [])).quaternions "p1"
       = getKey initialState.quaternions "p1") :=
  ⟨⟨by decide, by decide⟩,
   first_sighting_creates_proxy_without_target.1 100 initialState [] [] "p1"
     sampleMsg1 (by decide) (by decide) (by decide)⟩

/-- C4: for an identifier with an existing record, a snapshot whose position
field is absent leaves the stored target position exactly as it was, and a
snapshot whose orientation field is absent leaves the stored target
orientation as it was; the closed conjunct is the spec example — peer `abc`
with target `(1,0,0)` receives a `t`-only message and keeps target
`(1,0,0)`. -/
theorem absent_fields_retain_previous_target :
    (∀ (now : ℤ) (s : HState) (b1 b2 : List (String × SnapshotMessage))
       (c : String) (msg : SnapshotMessage) (mh : Mesh),
       c ∉ keys b1 → c ∉ keys b2 → getKey s.clientCubes c = some mh →
       (msg.p = none →
         getKey (handleClients now s (b1 ++ (c, msg) :: b2)).positions c
           = getKey s.positions c) ∧
       (msg.q = none →
         getKey (handleClients now s (b1 ++ (c, msg) :: b2)).quaternions c
           = getKey s.quaternions c)) ∧
    getKey (handleClients 1000
        (handleClients 10
          (handleClients 0 initialState [("abc", ⟨0, none, none⟩)])
          [("abc", ⟨10, some ⟨1, 0, 0⟩, none⟩)])
        [("abc", ⟨1000, none, none⟩)]).positions "abc" = some ⟨1, 0, 0⟩ := by
  refine ⟨?_, by decide⟩
  intro now s b1 b2 c msg mh h1 h2 hc
  obtain ⟨e1, e2, _, _, _⟩ := batch_existing_effect now s b1 b2 c msg mh h1 h2 hc
  constructor
  · intro hp
    rw [handleClients_positions, e1, hp]
  · intro hq
    rw [handleClients_quaternions, e2, hq]

/-- C4 witness: instantiating the retain-previous rule on the concrete spec
example state. -/
theorem absent_fields_retain_previous_target_witness :
    (("abc" ∉ keys ([] : List (String × SnapshotMessage))) ∧
     getKey (handleClients 10
        (handleClients 0 initialState [("abc", ⟨0, none, none⟩)])
        [("abc", ⟨10, some ⟨1, 0, 0⟩, none⟩)]).clientCubes "abc"
       = some (newMesh "abc") ∧
     (⟨1000, none, none⟩ : SnapshotMessage).p = none) ∧
    (getKey (handleClients 1000
        (handleClients 10
          (handleClients 0 initialState [("abc", ⟨0, none, none⟩)])
          [("abc", ⟨10, some ⟨1, 0, 0⟩, none⟩)])
        ([] ++ ("abc", (⟨1000, none, none⟩ : SnapshotMessage)) :: [])).positions "abc"
      = getKey (handleClients 10
          (handleClients 0 initialState [("abc", ⟨0, none, none⟩)])
          [("abc", ⟨10, some ⟨1, 0, 0⟩, none⟩)]).positions "abc") :=
  ⟨⟨by decide, by decide, by decide⟩,
   (absent_fields_retain_previous_target.1 1000
      (handleClients 10
        (handleClients 0 initialState [("abc", ⟨0, none, none⟩)])
        [("abc", ⟨10, some ⟨1, 0, 0⟩, none⟩)])
      [] [] "abc" ⟨1000, none, none⟩ (newMesh "abc")
      (by decide) (by decide) (by decide)).1 (by decide)⟩

end MultiplayerClient
namespace MultiplayerClient

/-- C5: one `updateClientCubes` call moves every cube that has a stored target
position exactly the fixed fraction 0.1 of the way toward it — new component =
current + 0.1·(target − current) — and slerps its quaternion by the same
fraction toward the stored target orientation (first conjunct); only the
latest stored target matters, so after a batch carrying a new position `v` the
advance moves toward `v` regardless of any earlier target (second conjunct);
in the §8 scenario one advance moves `p1` from `(0,0,0)` to `(0.2,0,0)`
(third conjunct). -/
theorem advance_moves_tenth_toward_latest_target :
    (∀ (f : Quat → Quat → ℚ → Quat) (s : HState) (c : String) (m : Mesh)
       (tp : Vec3),
       getKey s.clientCubes c = some m → getKey s.positions c = some tp →
       ∃ m', getKey (updateClientCubes f s).clientCubes c = some m' ∧
         m'.position.x = m.position.x + (1/10) * (tp.x - m.position.x) ∧
         m'.position.y = m.position.y + (1/10) * (tp.y - m.position.y) ∧
         m'.position.z = m.position.z + (1/10) * (tp.z - m.position.z) ∧
         (∀ tq, getKey s.quaternions c = some tq →
            m'.quaternion = f m.quaternion tq (1/10)) ∧
         (getKey s.quaternions c = none → m'.quaternion = m.quaternion)) ∧
    (∀ (f : Quat → Quat → ℚ → Quat) (now t : ℤ) (s : HState) (c : String)
       (m : Mesh) (v : Vec3) (qo : Option (ℚ × ℚ × ℚ × ℚ)),
       getKey s.clientCubes c = some m →
       ∃ m', getKey (updateClientCubes f
           (handleClients now s [(c, ⟨t, some v, qo⟩)])).clientCubes c = some m' ∧
         m'.position.x = m.position.x + (1/10) * (v.x - m.position.x) ∧
         m'.position.y = m.position.y + (1/10) * (v.y - m.position.y) ∧
         m'.position.z = m.position.z + (1/10) * (v.z - m.position.z)) ∧
    ((getKey (updateClientCubes lerpQuat sampleS2).clientCubes "p1").map
       Mesh.position = some ⟨1/5, 0, 0⟩) := by
  have main : ∀ (f : Quat → Quat → ℚ → Quat) (s : HState) (c : String)
      (m : Mesh) (tp : Vec3),
      getKey s.clientCubes c = some m → getKey s.positions c = some tp →
      ∃ m', getKey (updateClientCubes f s).clientCubes c = some m' ∧
        m'.position.x = m.position.x + (1/10) * (tp.x - m.position.x) ∧
        m'.position.y = m.position.y + (1/10) * (tp.y - m.position.y) ∧
        m'.position.z = m.position.z + (1/10) * (tp.z - m.position.z) ∧
        (∀ tq, getKey s.quaternions c = some tq →
           m'.quaternion = f m.quaternion tq (1/10)) ∧
        (getKey s.quaternions c = none → m'.quaternion = m.quaternion) := by
    intro f s c m tp hm hp
    refine ⟨advanceMesh f s.positions s.quaternions c m, ?_, ?_, ?_, ?_, ?_, ?_⟩
    · rw [updateClientCubes_getKey, hm]
      rfl
    · rw [advanceMesh_position_of_target hp]
      simp [lerpVec]
      ring
    · rw [advanceMesh_position_of_target hp]
      simp [lerpVec]
      ring
    · rw [advanceMesh_position_of_target hp]
      simp [lerpVec]
      ring
    · intro tq hq
      rw [advanceMesh_quaternion_of_target hq]
    · intro hq
      rw [advanceMesh_quaternion_of_no_target hq]
  refine ⟨main, ?_, ?_⟩
  · intro f now t s c m v qo hm
    have hb := batch_existing_effect now s [] [] c ⟨t, some v, qo⟩ m
      (by simp [keys]) (by simp [keys]) hm
    obtain ⟨e1, _, e3, _, _⟩ := hb
    have hm' : getKey (handleClients now s ([] ++ (c, (⟨t, some v, qo⟩ : SnapshotMessage)) :: [])).clientCubes c = some m := by
      rw [handleClients_clientCubes]
      exact e3
    have hp' : getKey (handleClients now s ([] ++ (c, (⟨t, some v, qo⟩ : SnapshotMessage)) :: [])).positions c = some v := by
      rw [handleClients_positions]
      exact e1
    obtain ⟨m', hget, hx, hy, hz, _, _⟩ :=
      main f (handleClients now s [(c, ⟨t, some v, qo⟩)]) c m v
        (by simpa using hm') (by simpa using hp')
    exact ⟨m', hget, hx, hy, hz⟩
  · simp [sampleS2, sampleS1, sampleMsg1, sampleMsg2, handleClients,
      processClientEntry, updateClientCubes, advanceMesh, getKey, setKey,
      initialState, newMesh, lerpVec, lerpQuat, quatOfArray]
    norm_num

/-- C5 witness: instantiating the fractional-step rule on the concrete §8
state. -/
theorem advance_moves_tenth_toward_latest_target_witness :
    (getKey sampleS2.clientCubes "p1" = some (newMesh "p1") ∧
     getKey sampleS2.positions "p1" = some ⟨2, 0, 0⟩) ∧
    (∃ m', getKey (updateClientCubes lerpQuat sampleS2).clientCubes "p1"
        = some m' ∧
      m'.position.x = (newMesh "p1").position.x
        + (1/10) * ((⟨2, 0, 0⟩ : Vec3).x - (newMesh "p1").position.x) ∧
      m'.position.y = (newMesh "p1").position.y
        + (1/10) * ((⟨2, 0, 0⟩ : Vec3).y - (newMesh "p1").position.y) ∧
      m'.position.z = (newMesh "p1").position.z
        + (1/10) * ((⟨2, 0, 0⟩ : Vec3).z - (newMesh "p1").position.z) ∧
      (∀ tq, getKey sampleS2.quaternions "p1" = some tq →
         m'.quaternion = lerpQuat (newMesh "p1").quaternion tq (1/10)) ∧
      (getKey sampleS2.quaternions "p1" = none →
         m'.quaternion = (newMesh "p1").quaternion)) :=
  ⟨⟨by decide, by decide⟩,
   advance_moves_tenth_toward_latest_target.1 lerpQuat sampleS2 "p1"
     (newMesh "p1") ⟨2, 0, 0⟩ (by decide) (by decide)⟩

end MultiplayerClient
namespace MultiplayerClient

/-- C6: with a stored constant target, each `updateClientCubes` call scales
the squared distance to the target by exactly 81/100, hence the distance
strictly decreases whenever the current position differs from the target, and
the residual along each axis keeps its sign and shrinks by the factor 9/10 —
the cube never overshoots past the target. -/
theorem advance_monotone_convergence_no_overshoot :
    ∀ (f : Quat → Quat → ℚ → Quat) (s : HState) (c : String) (m : Mesh)
      (tp : Vec3),
      getKey s.clientCubes c = some m → getKey s.positions c = some tp →
      ∃ m', getKey (updateClientCubes f s).clientCubes c = some m' ∧
        distSq m'.position tp = (81/100) * distSq m.position tp ∧
        (m.position ≠ tp → distSq m'.position tp < distSq m.position tp) ∧
        m'.position.x - tp.x = (9/10) * (m.position.x - tp.x) ∧
        m'.position.y - tp.y = (9/10) * (m.position.y - tp.y) ∧
        m'.position.z - tp.z = (9/10) * (m.position.z - tp.z) := by
  intro f s c m tp hm hp
  refine ⟨advanceMesh f s.positions s.quaternions c m, ?_, ?_, ?_, ?_, ?_, ?_⟩
  · rw [updateClientCubes_getKey, hm]
    rfl
  · rw [advanceMesh_position_of_target hp, distSq_lerp]
  · intro hne
    rw [advanceMesh_position_of_target hp, distSq_lerp]
    have hpos : 0 < distSq m.position tp := distSq_pos_of_ne hne
    linarith
  · rw [advanceMesh_position_of_target hp]
    exact lerp_residual_x _ _
  · rw [advanceMesh_position_of_target hp]
    exact lerp_residual_y _ _
  · rw [advanceMesh_position_of_target hp]
    exact lerp_residual_z _ _

/-- C6 witness: instantiating the monotone-convergence theorem on the
concrete §8 state, where the current position `(0,0,0)` differs from the
target `(2,0,0)`. -/
theorem advance_monotone_convergence_no_overshoot_witness :
    (getKey sampleS2.clientCubes "p1" = some (newMesh "p1") ∧
     getKey sampleS2.positions "p1" = some ⟨2, 0, 0⟩) ∧
    (∃ m', getKey (updateClientCubes lerpQuat sampleS2).clientCubes "p1"
        = some m' ∧
      distSq m'.position ⟨2, 0, 0⟩
        = (81/100) * distSq (newMesh "p1").position ⟨2, 0, 0⟩ ∧
      ((newMesh "p1").position ≠ (⟨2, 0, 0⟩ : Vec3) →
        distSq m'.position ⟨2, 0, 0⟩ < distSq (newMesh "p1").position ⟨2, 0, 0⟩) ∧
      m'.position.x - (⟨2, 0, 0⟩ : Vec3).x
        = (9/10) * ((newMesh "p1").position.x - (⟨2, 0, 0⟩ : Vec3).x) ∧
      m'.position.y - (⟨2, 0, 0⟩ : Vec3).y
        = (9/10) * ((newMesh "p1").position.y - (⟨2, 0, 0⟩ : Vec3).y) ∧
      m'.position.z - (⟨2, 0, 0⟩ : Vec3).z
        = (9/10) * ((newMesh "p1").position.z - (⟨2, 0, 0⟩ : Vec3).z)) :=
  ⟨⟨by decide, by decide⟩,
   advance_monotone_convergence_no_overshoot lerpQuat sampleS2 "p1"
     (newMesh "p1") ⟨2, 0, 0⟩ (by decide) (by decide)⟩

/-- C7: on every reachable handler state, `handleRemoveClient` is a total
no-op for an identifier with no record (no exception is modelled because none
can occur: `remove(undefined)` does nothing), a second removal of the same
identifier right after a first one changes nothing, and no removal ever
touches the registry maps (`clientCubes`, `positions`, `quaternions`). -/
theorem removeClient_idempotent_and_total :
    ∀ (s : HState) (i : String), Reachable s →
      (getKey s.clientCubes i = none → handleRemoveClient s i = s) ∧
      handleRemoveClient (handleRemoveClient s i) i = handleRemoveClient s i ∧
      (handleRemoveClient s i).clientCubes = s.clientCubes ∧
      (handleRemoveClient s i).positions = s.positions ∧
      (handleRemoveClient s i).quaternions = s.quaternions := by
  intro s i hreach
  obtain ⟨hsub, hnd⟩ := reachable_registryInv hreach
  refine ⟨?_, ?_, rfl, rfl, rfl⟩
  · intro hnone
    have hmem : i ∉ s.sceneNames := fun hm =>
      (getKey_eq_none_iff _ _).mp hnone (hsub hm)
    show { s with sceneNames := s.sceneNames.erase i } = s
    rw [List.erase_of_not_mem hmem]
  · have hmem : i ∉ s.sceneNames.erase i := by
      intro hm
      exact ((hnd.mem_erase_iff).mp hm).1 rfl
    show { s with sceneNames := (s.sceneNames.erase i).erase i }
      = { s with sceneNames := s.sceneNames.erase i }
    rw [List.erase_of_not_mem hmem]

/-- C7 witness: instantiating on the reachable state after the first §8
batch, removing the never-registered identifier `p2` and re-removing `p1`. -/
theorem removeClient_idempotent_and_total_witness :
    (getKey sampleS1.clientCubes "p2" = none) ∧
    (handleRemoveClient sampleS1 "p2" = sampleS1 ∧
     handleRemoveClient (handleRemoveClient sampleS1 "p2") "p2"
       = handleRemoveClient sampleS1 "p2" ∧
     (handleRemoveClient sampleS1 "p2").clientCubes = sampleS1.clientCubes ∧
     (handleRemoveClient sampleS1 "p2").positions = sampleS1.positions ∧
     (handleRemoveClient sampleS1 "p2").quaternions = sampleS1.quaternions) :=
  ⟨by decide,
   (removeClient_idempotent_and_total sampleS1 "p2"
      (Reachable.clients 100 [("p1", sampleMsg1)] Reachable.init)).1 (by decide),
   (removeClient_idempotent_and_total sampleS1 "p2"
      (Reachable.clients 100 [("p1", sampleMsg1)] Reachable.init)).2⟩

end MultiplayerClient
namespace MultiplayerClient

/-! ### Publisher trace lemmas -/

theorem pubRun_append (s : PubState) (l1 l2 : List SocketEvent) :
    pubRun s (l1 ++ l2)
      = ((pubRun (pubRun s l1).1 l2).1,
         (pubRun s l1).2 ++ (pubRun (pubRun s l1).1 l2).2) := by
  induction l1 generalizing s with
  | nil => simp [pubRun]
  | cons e rest ih => simp [pubRun, ih, List.append_assoc]

theorem pubRun_no_id_state {l : List SocketEvent}
    (h : ∀ e ∈ l, isIdEvent e = false) :
    ∀ s : PubState, (pubRun s l).1.intervalCount = s.intervalCount := by
  induction l with
  | nil => intro s; rfl
  | cons e rest ih =>
      intro s
      have he : isIdEvent e = false := h e (List.mem_cons_self e rest)
      have hrest : ∀ e ∈ rest, isIdEvent e = false :=
        fun e hmem => h e (List.mem_cons_of_mem _ hmem)
      cases e with
      | evConnect => exact ih hrest s
      | evDisconnect => exact ih hrest s
      | evId i => simp [isIdEvent] at he
      | evTick now p q => exact ih hrest s

theorem pubRun_emissions_of_count_zero {l : List SocketEvent}
    (h : ∀ e ∈ l, isIdEvent e = false) :
    ∀ s : PubState, s.intervalCount = 0 → (pubRun s l).2 = [] := by
  induction l with
  | nil => intro s _; rfl
  | cons e rest ih =>
      intro s hs
      have he : isIdEvent e = false := h e (List.mem_cons_self e rest)
      have hrest : ∀ e ∈ rest, isIdEvent e = false :=
        fun e hmem => h e (List.mem_cons_of_mem _ hmem)
      cases e with
      | evConnect => simpa [pubRun, pubStep] using ih hrest s hs
      | evDisconnect => simpa [pubRun, pubStep] using ih hrest s hs
      | evId i => simp [isIdEvent] at he
      | evTick now p q => simpa [pubRun, pubStep, hs] using ih hrest s hs

theorem pubRun_emissions_of_count_one {l : List SocketEvent}
    (h : ∀ e ∈ l, isIdEvent e = false) :
    ∀ s : PubState, s.intervalCount = 1 →
      (pubRun s l).2 = l.filterMap tickMsgOf := by
  induction l with
  | nil => intro s _; rfl
  | cons e rest ih =>
      intro s hs
      have he : isIdEvent e = false := h e (List.mem_cons_self e rest)
      have hrest : ∀ e ∈ rest, isIdEvent e = false :=
        fun e hmem => h e (List.mem_cons_of_mem _ hmem)
      cases e with
      | evConnect => simpa [pubRun, pubStep, tickMsgOf] using ih hrest s hs
      | evDisconnect => simpa [pubRun, pubStep, tickMsgOf] using ih hrest s hs
      | evId i => simp [isIdEvent] at he
      | evTick now p q =>
          simpa [pubRun, pubStep, tickMsgOf, hs, List.replicate] using ih hrest s hs

end MultiplayerClient
namespace MultiplayerClient

/-- C8: the publish interval is 50 ms; over any event trace with no
id-assignment event no `update` message is emitted at all; and over any trace
whose only id-assignment event fires once, every timer tick after it emits
exactly one `update` message carrying the tick time and the live local pose
read at that tick, and nothing else is emitted. -/
theorem no_update_before_id_then_one_per_tick :
    updateIntervalMs = 50 ∧
    (∀ l : List SocketEvent, (∀ e ∈ l, isIdEvent e = false) →
       (pubRun initialPubState l).2 = []) ∧
    (∀ (pre post : List SocketEvent) (i : String),
       (∀ e ∈ pre, isIdEvent e = false) → (∀ e ∈ post, isIdEvent e = false) →
       (pubRun initialPubState (pre ++ SocketEvent.evId i :: post)).2
         = post.filterMap tickMsgOf) := by
  refine ⟨rfl, ?_, ?_⟩
  · intro l h
    exact pubRun_emissions_of_count_zero h initialPubState rfl
  · intro pre post i hpre hpost
    rw [pubRun_append]
    rw [pubRun_emissions_of_count_zero hpre initialPubState rfl]
    have h0 : (pubRun initialPubState pre).1.intervalCount = 0 :=
      pubRun_no_id_state hpre initialPubState
    show [] ++ (pubRun _ (SocketEvent.evId i :: post)).2 = _
    rw [List.nil_append]
    show (pubStep _ (SocketEvent.evId i)).2
        ++ (pubRun (pubStep _ (SocketEvent.evId i)).1 post).2 = _
    rw [pubRun_emissions_of_count_one hpost _ (by simp [pubStep, h0])]
    rfl

/-- C8 witness: a concrete trace — connect, a premature tick (emits nothing),
the id assignment, then two ticks, each emitting exactly its live-pose
message. -/
theorem no_update_before_id_then_one_per_tick_witness :
    ((∀ e ∈ [SocketEvent.evConnect, SocketEvent.evTick 7 ⟨1, 2, 3⟩ ⟨0, 0, 0, 1⟩],
        isIdEvent e = false) ∧
     (∀ e ∈ [SocketEvent.evTick 60 ⟨4, 5, 6⟩ ⟨0, 0, 0, 1⟩,
             SocketEvent.evDisconnect,
             SocketEvent.evTick 110 ⟨7, 8, 9⟩ ⟨1, 0, 0, 0⟩],
        isIdEvent e = false)) ∧
    (pubRun initialPubState
        ([SocketEvent.evConnect, SocketEvent.evTick 7 ⟨1, 2, 3⟩ ⟨0, 0, 0, 1⟩]
          ++ SocketEvent.evId "me"
          :: [SocketEvent.evTick 60 ⟨4, 5, 6⟩ ⟨0, 0, 0, 1⟩,
              SocketEvent.evDisconnect,
              SocketEvent.evTick 110 ⟨7, 8, 9⟩ ⟨1, 0, 0, 0⟩])).2
      = [SocketEvent.evTick 60 ⟨4, 5, 6⟩ ⟨0, 0, 0, 1⟩,
         SocketEvent.evDisconnect,
         SocketEvent.evTick 110 ⟨7, 8, 9⟩ ⟨1, 0, 0, 0⟩].filterMap tickMsgOf :=
  ⟨⟨by decide, by decide⟩,
   no_update_before_id_then_one_per_tick.2.2
     [SocketEvent.evConnect, SocketEvent.evTick 7 ⟨1, 2, 3⟩ ⟨0, 0, 0, 1⟩]
     [SocketEvent.evTick 60 ⟨4, 5, 6⟩ ⟨0, 0, 0, 1⟩,
      SocketEvent.evDisconnect,
      SocketEvent.evTick 110 ⟨7, 8, 9⟩ ⟨1, 0, 0, 0⟩]
     "me" (by decide) (by decide)⟩

end MultiplayerClient
namespace MultiplayerClient

/-! ### `handleClients` never consults the stored local identifier -/

theorem hstate_ext (a b : HState)
    (h1 : a.clientCubes = b.clientCubes) (h2 : a.positions = b.positions)
    (h3 : a.quaternions = b.quaternions) (h4 : a.sceneNames = b.sceneNames)
    (h5 : a.myId = b.myId) (h6 : a.timestamp = b.timestamp)
    (h7 : a.pingStatsHtml = b.pingStatsHtml) : a = b := by
  cases a
  cases b
  simp_all

theorem processClientEntry_myId_comm (now : ℤ) (s : HState) (c : String)
    (m : SnapshotMessage) (x : String) :
    processClientEntry now { s with myId := x } c m
      = { processClientEntry now s c m with myId := x } := by
  cases hc : getKey s.clientCubes c with
  | none =>
      have hc' : getKey ({ s with myId := x } : HState).clientCubes c = none := hc
      rw [processClientEntry_fresh hc', processClientEntry_fresh hc]
  | some mh =>
      have hc' : getKey ({ s with myId := x } : HState).clientCubes c = some mh := hc
      rw [processClientEntry_existing mh hc', processClientEntry_existing mh hc]

theorem clientsFold_myId_comm (now : ℤ) (b : List (String × SnapshotMessage)) :
    ∀ (s : HState) (x : String),
      clientsFold now { s with myId := x } b
        = { clientsFold now s b with myId := x } := by
  induction b with
  | nil => intro s x; rfl
  | cons e rest ih =>
      intro s x
      rw [clientsFold_cons, clientsFold_cons, processClientEntry_myId_comm, ih]

theorem pairFold_snd_state_irrelevant (now : ℤ)
    (b : List (String × SnapshotMessage)) :
    ∀ (s s' : HState) (str : String),
      (b.foldl (fun (acc : HState × String) e =>
        (processClientEntry now acc.1 e.1 e.2, acc.2 ++ pingLine now e.1 e.2))
        (s, str)).2
      = (b.foldl (fun (acc : HState × String) e =>
        (processClientEntry now acc.1 e.1 e.2, acc.2 ++ pingLine now e.1 e.2))
        (s', str)).2 := by
  induction b with
  | nil => intro s s' str; rfl
  | cons e rest ih =>
      intro s s' str
      exact ih (processClientEntry now s e.1 e.2) (processClientEntry now s' e.1 e.2)
        (str ++ pingLine now e.1 e.2)

theorem handleClients_html_state_irrelevant (now : ℤ) (s s' : HState)
    (b : List (String × SnapshotMessage)) :
    (handleClients now s b).pingStatsHtml = (handleClients now s' b).pingStatsHtml := by
  show (b.foldl (fun (acc : HState × String) e =>
      (processClientEntry now acc.1 e.1 e.2, acc.2 ++ pingLine now e.1 e.2))
      (s, "Socket Ping Stats<br/><br/>")).2
    = (b.foldl (fun (acc : HState × String) e =>
      (processClientEntry now acc.1 e.1 e.2, acc.2 ++ pingLine now e.1 e.2))
      (s', "Socket Ping Stats<br/><br/>")).2
  exact pairFold_snd_state_irrelevant now b s s' _

theorem handleClients_timestamp (now : ℤ) (s : HState)
    (b : List (String × SnapshotMessage)) :
    (handleClients now s b).timestamp = (clientsFold now s b).timestamp := by
  show ((b.foldl _ (s, _)).1).timestamp = _
  rw [handleClients_toFold]

/-- C9: the registry performs no self-filtering.  `handleClients` commutes
with any overwrite of the stored local identifier and never changes it (first
two conjuncts: the result is the same state whatever `myId` holds, so `myId`
is never consulted), and a batch whose key equals the local identifier is
processed exactly like a remote peer — a proxy cube is created for it and its
target is then updated (closed conjuncts). -/
theorem handleClients_ignores_myId :
    (∀ (now : ℤ) (x : String) (s : HState)
       (b : List (String × SnapshotMessage)),
       handleClients now { s with myId := x } b
         = { handleClients now s b with myId := x }) ∧
    (∀ (now : ℤ) (s : HState) (b : List (String × SnapshotMessage)),
       (handleClients now s b).myId = s.myId) ∧
    (getKey (handleClients 100 { initialState with myId := "me" }
        [("me", sampleMsg1)]).clientCubes "me" = some (newMesh "me") ∧
     getKey (handleClients 100 { initialState with myId := "me" }
        [("me", sampleMsg1)]).positions "me" = none ∧
     getKey (handleClients 150
        (handleClients 100 { initialState with myId := "me" }
          [("me", sampleMsg1)])
        [("me", sampleMsg2)]).positions "me" = some ⟨2, 0, 0⟩) := by
  refine ⟨?_, handleClients_myId, by decide, by decide, by decide⟩
  intro now x s b
  refine hstate_ext _ _ ?_ ?_ ?_ ?_ ?_ ?_ ?_
  · rw [handleClients_clientCubes, handleClients_clientCubes,
      clientsFold_myId_comm]
  · rw [handleClients_positions, handleClients_positions, clientsFold_myId_comm]
  · rw [handleClients_quaternions, handleClients_quaternions,
      clientsFold_myId_comm]
  · rw [handleClients_sceneNames, handleClients_sceneNames, clientsFold_myId_comm]
  · rw [handleClients_myId]
  · rw [handleClients_timestamp, handleClients_timestamp, clientsFold_myId_comm]
  · exact handleClients_html_state_irrelevant now _ _ b

end MultiplayerClient
